import Mathlib

/-!
Verification of the incremental SQL extraction agent
(collector.py, main.py, agent_queue.py, sender.py, state.py).

Shallow embedding conventions:
* Python `datetime` values are modelled as integers on a seconds timeline
  (the concrete origin is irrelevant; `timedelta(minutes=m)` is `m * 60`).
* Python dicts of row data are modelled by the `Fields` association list;
  dynamic row values by the `Value` inductive.  An ISO-8601 string that
  denotes a timestamp `t` is modelled by `Value.vTsStr t` (so
  `datetime.fromisoformat (t.isoformat())` returning `t` is the constructor
  round trip).  Values that are neither datetimes nor JSON-representable
  (bytes, Decimal, ...) are modelled by `Value.vOpaque`.
* Fallible Python code (raised exceptions) is modelled with `Except String`.
-/

/- Dynamic row values (Python objects appearing in row dicts):
`vTs` is a `datetime`, `vTsStr t` an ISO-8601 text rendering that denotes
the timestamp `t`, `vOpaque` a value that is neither a datetime nor
JSON-serializable (bytes, Decimal, ...), `vObj` a nested dict whose
entries are a `Fields` association list. -/
mutual

/-- Dynamic row value (a Python object stored in a row dict). -/
inductive Value where
  | vInt (n : Int)
  | vTs (t : Int)
  | vTsStr (t : Int)
  | vStr (s : String)
  | vNone
  | vOpaque (tag : String)
  | vObj (fields : Fields)

/-- A Python dict of row data: an association list of keys and values. -/
inductive Fields where
  | nil
  | cons (k : String) (v : Value) (rest : Fields)

end

/-- Python dict lookup (`d[k]` / `d.get(k)`); keys are unique in a dict,
modelled by first-match lookup. -/
def lookupF (f : Fields) (key : String) : Option Value :=
  match f with
  | .nil => none
  | .cons k v rest => if k = key then some v else lookupF rest key

/-- Model of `main._payload`: `row.get("payload") if isinstance(row.get("payload"), dict) else row`. -/
def payloadOf (r : Fields) : Fields :=
  match lookupF r "payload" with
  | some (.vObj m) => m
  | _ => r

/-- Python `int(value)` on a row value.  Only genuine ints appear where the
agent applies it; all other cases (which would raise or coerce in Python)
are modelled as `none`, surfaced as an error by the callers. -/
def valToInt : Value → Option Int
  | .vInt n => some n
  | _ => none

/-- The sentinel `datetime(1900, 1, 1)` on the seconds timeline (seconds before the epoch). -/
def epoch1900 : Int := -2208988800

/-- Model of `config.normalize_timestamp`: a datetime is returned unchanged, a
non-empty string is parsed with `datetime.fromisoformat` (which on the ISO
rendering of `t` returns `t`; other non-empty text raises `ValueError`),
anything else falls through to `datetime(1900, 1, 1)`. -/
def normalizeTimestamp : Value → Except String Int
  | .vTs t => .ok t
  | .vTsStr t => .ok t
  | .vStr "" => .ok epoch1900
  | .vStr _ => .error "ValueError: invalid isoformat string"
  | _ => .ok epoch1900

/-- Python `str.join`-style concatenation with a separator (`sep.join(parts)`). -/
def joinWith (sep : String) : List String → String
  | [] => ""
  | [s] => s
  | s :: rest => s ++ sep ++ joinWith sep rest

/-- Python `name.split(".")` over the character list of the string
(`"".split(".") == [""]`). -/
def splitDot : List Char → List (List Char)
  | [] => [[]]
  | c :: cs =>
    if c = '.' then [] :: splitDot cs
    else
      match splitDot cs with
      | [] => [[c]]
      | p :: ps => (c :: p) :: ps

/-- Python `str.isalnum` on one character (the agent's identifiers are
ASCII; this models the ASCII fragment of the Unicode-aware original). -/
def pyIsAlnum (c : Char) : Bool := c.isAlphanum

/-- Model of `part.replace("_", "").isalnum()`: strip underscores, then `isalnum`
(which is `False` on the empty string). -/
def strippedIsAlnum (p : List Char) : Bool :=
  let s := p.filter (fun c => c ≠ '_')
  !s.isEmpty && s.all pyIsAlnum

/-- One loop iteration of `collector._quote_identifier` over the split
parts: raise on an empty part or one whose underscore-stripped form is not
alphanumeric, else bracket-quote it.  The raised message carries the whole
identifier. -/
def quotePartsAux (name : String) : List (List Char) → Except String (List String)
  | [] => .ok []
  | p :: rest =>
    if p.isEmpty || !strippedIsAlnum p then
      .error ("Invalid SQL identifier: " ++ name)
    else do
      let qs ← quotePartsAux name rest
      .ok (("[" ++ String.mk p ++ "]") :: qs)

/-- Model of `collector._quote_identifier`: split on `.`, validate and quote each
part, rejoin with `.`. -/
def quoteIdentifier (name : String) : Except String String := do
  let quoted ← quotePartsAux name (splitDot name.toList)
  .ok (joinWith "." quoted)

/-- Model of `collector._qualified`: the quoted column text after the alias and a
dot. -/
def qualified (al : String) (column : String) : Except String String := do
  let q ← quoteIdentifier column
  .ok (al ++ "." ++ q)

/-- Model of `config.IncrementalConfig`.  The `start_from` YAML string is modelled
by the timestamp it denotes (`none` for the falsy empty string). -/
structure IncrementalConfig where
  mode : String
  id_column : String
  ts_column : String
  tie_breaker : String
  start_from : Option Int

/-- Model of `config.SourceConfig`. -/
structure SourceConfig where
  name : String
  kind : String
  table : String
  query : String
  select : List String
  filter : String
  incremental : IncrementalConfig

/-- Model of `collector._build_select`: `*` when no projection is configured,
otherwise the quoted columns joined with `, `. -/
def buildSelect (src : SourceConfig) : Except String String :=
  if src.select.isEmpty then .ok "*"
  else do
    let cols ← src.select.mapM quoteIdentifier
    .ok (joinWith ", " cols)

/-- Model of `collector._build_where`: the incremental predicate and its bound
parameters.  `mode == "id"` gives `alias.[id] > ?` with `[last_id]`; any
other mode takes the timestamp branch producing
`(alias.[ts] > ?) OR (alias.[ts] = ? AND alias.[tie] > ?)` with
`[last_ts, last_ts, last_tie]`. -/
def buildWhere (inc : IncrementalConfig) (lastId lastTs lastTie : Int) (al : String) :
    Except String (String × List Value) :=
  if inc.mode = "id" then do
    let idSql ← qualified al inc.id_column
    .ok (idSql ++ " > ?", [Value.vInt lastId])
  else do
    let tsSql ← qualified al inc.ts_column
    let tieSql ← qualified al inc.tie_breaker
    .ok ("(" ++ tsSql ++ " > ?) OR (" ++ tsSql ++ " = ? AND " ++ tieSql ++ " > ?)",
      [Value.vTs lastTs, Value.vTs lastTs, Value.vInt lastTie])

/-- The table alias `fetch_rows` uses: `t` for `kind == "table"`, `q` for
the wrapped-query kind. -/
def aliasFor (src : SourceConfig) : String :=
  if src.kind = "table" then "t" else "q"

/-- The query construction of `collector.fetch_rows` (up to the driver
call): the query text and the positional bound parameters.  Mirrors both
source kinds, the `if where_sql:` truthiness guards, the optional raw
filter clause, and the mode-dependent `ORDER BY` (ascending; the id-mode
order relies on the SQL default direction). -/
def buildQuery (src : SourceConfig) (lastId lastTs lastTie : Int) (batchSize : Nat) :
    Except String (String × List Value) :=
  if src.kind = "table" then do
    let selectSql ← buildSelect src
    let tableSql ← quoteIdentifier src.table
    let wsp ← buildWhere src.incremental lastId lastTs lastTie "t"
    let wsql := wsp.1
    let whereClauses := (if wsql = "" then [] else [wsql]) ++
      (if src.filter = "" then [] else ["(" ++ src.filter ++ ")"])
    let params := if wsql = "" then [] else wsp.2
    let base := "SELECT TOP (" ++ toString batchSize ++ ") " ++ selectSql ++
      " FROM " ++ tableSql ++ " AS t"
    let base := if whereClauses.isEmpty then base
      else base ++ " WHERE " ++ joinWith " AND " whereClauses
    if src.incremental.mode = "id" then do
      let ob ← qualified "t" src.incremental.id_column
      .ok (base ++ " ORDER BY " ++ ob, params)
    else do
      let ts ← qualified "t" src.incremental.ts_column
      let tie ← qualified "t" src.incremental.tie_breaker
      .ok (base ++ " ORDER BY " ++ ts ++ " ASC, " ++ tie ++ " ASC", params)
  else do
    let wsp ← buildWhere src.incremental lastId lastTs lastTie "q"
    let wsql := wsp.1
    let whereClauses := (if wsql = "" then [] else [wsql]) ++
      (if src.filter = "" then [] else ["(" ++ src.filter ++ ")"])
    let params := if wsql = "" then [] else wsp.2
    let base := "SELECT TOP (" ++ toString batchSize ++ ") * FROM (" ++ src.query ++ ") AS q"
    let base := if whereClauses.isEmpty then base
      else base ++ " WHERE " ++ joinWith " AND " whereClauses
    if src.incremental.mode = "id" then do
      let ob ← qualified "q" src.incremental.id_column
      .ok (base ++ " ORDER BY " ++ ob, params)
    else do
      let ts ← qualified "q" src.incremental.ts_column
      let tie ← qualified "q" src.incremental.tie_breaker
      .ok (base ++ " ORDER BY " ++ ts ++ " ASC, " ++ tie ++ " ASC", params)

/-- One line of the queue's backing file as `agent_queue.load_queue` sees
it: a parsed dict item, a line whose JSON parse fails or is not a dict, or
a blank line. -/
inductive QLine (α : Type) where
  | good (item : α)
  | bad (s : String)
  | blank
deriving DecidableEq

/-- The queue's backing file: `none` when the file does not exist,
otherwise its list of lines. -/
def QStore (α : Type) : Type := Option (List (QLine α))

/-- Model of `agent_queue.load_queue`: an absent file loads as `[]`; blank lines and
lines that fail to parse (or are not dicts) are skipped. -/
def loadQueue {α : Type} (store : QStore α) : List α :=
  match store with
  | none => []
  | some lines =>
    lines.filterMap (fun l => match l with | .good item => some item | _ => none)

/-- Model of `agent_queue._can_append`: a non-positive cap is unbounded, an absent
file can always be appended to, otherwise the file's size in megabytes
(`st_size / (1024 * 1024)`, exact for these magnitudes, modelled in `ℚ`)
must be strictly below the cap. -/
def canAppend {α : Type} (sizeFn : QLine α → Nat) (store : QStore α) (maxMb : Int) : Bool :=
  if maxMb ≤ 0 then true
  else
    match store with
    | none => true
    | some lines => decide ((((lines.map sizeFn).sum : ℚ) / 1048576) < (maxMb : ℚ))

/-- Total size in bytes of the backing file (`path.stat().st_size`);
`sizeFn` gives each line's encoded byte length. -/
def storeSizeBytes {α : Type} (sizeFn : QLine α → Nat) (store : QStore α) : Nat :=
  match store with
  | none => 0
  | some lines => (lines.map sizeFn).sum

/-- Model of `agent_queue.append_queue`: reject (returning `false`) when
`_can_append` fails, otherwise append one line holding the item and return
`true` (creating the file if absent). -/
def appendQueue {α : Type} (sizeFn : QLine α → Nat) (store : QStore α) (item : α)
    (maxMb : Int) : QStore α × Bool :=
  if canAppend sizeFn store maxMb then
    (some ((store.getD []) ++ [QLine.good item]), true)
  else (store, false)

/-- Model of `agent_queue.rewrite_queue`: an empty item list unlinks the backing
file; otherwise the file is atomically replaced with exactly one line per
item. -/
def rewriteQueue {α : Type} (items : List α) : QStore α :=
  if items.isEmpty then none else some (items.map QLine.good)

/-- A sequence of `append_queue` calls starting from `store`; the flag is
`true` exactly when every append was accepted. -/
def appendAll {α : Type} (sizeFn : QLine α → Nat) (maxMb : Int) (store : QStore α)
    (items : List α) : QStore α × Bool :=
  items.foldl
    (fun acc it =>
      let step := appendQueue sizeFn acc.1 it maxMb
      (step.1, acc.2 && step.2))
    (store, true)

/-- The queue-drain loop of `main.run`: walk the pending items in order;
an invalid item (unknown source / rows not a list) is skipped with a
warning; a delivered item is dropped; the first valid item whose delivery
fails stops the drain, and it together with every later item is the
rewritten remainder (`remaining.extend(pending[index:])`). -/
def drainRemaining {α : Type} (valid deliver : α → Bool) : List α → List α
  | [] => []
  | item :: rest =>
    if !valid item then drainRemaining valid deliver rest
    else if deliver item then drainRemaining valid deliver rest
    else item :: rest

/-- An `Except`-valued map over a list, evaluating left to right and
propagating the first error (the shape of Python iteration that may
raise). -/
def mapE {α β : Type} (f : α → Except String β) : List α → Except String (List β)
  | [] => .ok []
  | x :: xs => do
    let y ← f x
    let ys ← mapE f xs
    .ok (y :: ys)

/-- Model of `int(_payload(row)[id_column])`: dict access raises `KeyError` on a
missing column, `int()` raises on a non-integer value. -/
def rowIdVal (idCol : String) (row : Fields) : Except String Int :=
  match lookupF (payloadOf row) idCol with
  | none => .error "KeyError"
  | some v =>
    match valToInt v with
    | some n => .ok n
    | none => .error "TypeError: int conversion"

/-- The per-row reads of the ts-mode watermark scan:
`normalize_timestamp(_payload(row)[ts_column])` and
`int(_payload(row)[tie_breaker])`, in that evaluation order. -/
def rowTsTie (tsCol tieCol : String) (row : Fields) : Except String (Int × Int) :=
  match lookupF (payloadOf row) tsCol with
  | none => .error "KeyError"
  | some v => do
    let t ← normalizeTimestamp v
    match lookupF (payloadOf row) tieCol with
    | none => .error "KeyError"
    | some w =>
      match valToInt w with
      | some k => .ok (t, k)
      | none => .error "TypeError: int conversion"

/-- One step of the ts-mode scan in `main._watermark_from_batch`: replace
the best `(ts, tie)` pair when the row's pair is strictly greater in the
lexicographic order (`ts_value > best_ts or (ts_value == best_ts and tie >
best_tie)`). -/
def lexStep (b p : Int × Int) : Int × Int :=
  if p.1 > b.1 ∨ (p.1 = b.1 ∧ p.2 > b.2) then p else b

/-- Model of `main._watermark_from_batch`: `(0, None, None)` for an empty batch; in
id mode the maximum id across the batch with no ts/tie component; in ts
mode the lexicographically greatest `(ts, tie)` pair, with the winning tie
also returned as the id component.  (The first row always replaces the
`best_ts is None` initial state, so the scan is a fold from the first
row's pair.) -/
def watermarkFromBatch (mode idCol tsCol tieCol : String) (batch : List Fields) :
    Except String (Int × Option Int × Option Int) :=
  match batch with
  | [] => .ok (0, none, none)
  | b0 :: rest =>
    if mode = "id" then do
      let i0 ← rowIdVal idCol b0
      let is ← mapE (rowIdVal idCol) rest
      .ok (is.foldl max i0, none, none)
    else do
      let p0 ← rowTsTie tsCol tieCol b0
      let ps ← mapE (rowTsTie tsCol tieCol) rest
      let best := ps.foldl lexStep p0
      .ok (best.2, some best.1, some best.2)

/-- One source's entry in the watermark store file
(`{last_id, last_ts?, last_tie?}`); a stored `last_ts` ISO string is
modelled by the timestamp it denotes.  A source with no entry is the
all-absent record (`get_source_state` returns `{}`). -/
structure SourceState where
  lastId? : Option Int
  lastTs? : Option Int
  lastTie? : Option Int
deriving DecidableEq

/-- Model of `main._get_watermark`: `last_id` defaults to `0`, `last_tie` defaults
to the value read for `last_id`, and `last_ts` is normalized — in ts mode
an absent value becomes the `datetime(1900, 1, 1)` sentinel, in any other
mode the sentinel is used unconditionally. -/
def getWatermark (mode : String) (ss : SourceState) : Int × Int × Int :=
  let lastId := ss.lastId?.getD 0
  let lastTie := ss.lastTie?.getD lastId
  let lastTs :=
    if mode = "ts" then
      match ss.lastTs? with
      | some t => t
      | none => epoch1900
    else epoch1900
  (lastId, lastTs, lastTie)

/-- Model of `state.update_source_state`: the source's entry is replaced by
`{"last_id": last_id}` plus `last_ts`/`last_tie` keys only when those
values are not `None`. -/
def updateSourceState (lastId : Int) (lastTs? : Option Int) (lastTie? : Option Int) :
    SourceState :=
  ⟨some lastId, lastTs?, lastTie?⟩

/-- Model of `main._apply_start_from`: only a ts-mode source with a configured
(non-empty) `start_from` floors the cursor at `max(last_ts, start_ts)`. -/
def applyStartFrom (mode : String) (startFrom : Option Int) (lastTs : Int) : Int :=
  if mode ≠ "ts" then lastTs
  else
    match startFrom with
    | none => lastTs
    | some t => max lastTs t

/-- Model of `main._apply_lookback`: a positive lookback subtracts
`timedelta(minutes=lookback_minutes)` from the ts cursor, unconditionally
each cycle. -/
def applyLookback (lastTs : Int) (lookbackMinutes : Int) : Int :=
  if lookbackMinutes ≤ 0 then lastTs else lastTs - lookbackMinutes * 60

/-- What one per-source iteration of `main.run` did to that source. -/
inductive CycleOutcome where
  | noRows
  | sent
  | queued
  | dropped
deriving DecidableEq

/-- One per-source iteration of the extraction loop in `main.run`: read
the watermark, apply the `start_from` floor and the lookback rewind, apply
the periodic reprocessing rewind when due (`reprocessFrom = some t` models
`reprocess_every_minutes > 0 and now >= next_reprocess_at and
reprocess_window_minutes > 0`, with `t = now - reprocess_window`) for a
ts-mode source, fetch with the effective cursor (the `fetch` oracle stands
for the database), and on a non-empty batch either persist the watermark
computed from the raw batch (delivery succeeded, `sendOk`) or try to
enqueue it (`queueAccept` models the cap check).  An empty batch changes
nothing. -/
def processSource (mode idCol tsCol tieCol : String) (startFrom : Option Int)
    (lookbackMinutes : Int) (reprocessFrom : Option Int) (ss : SourceState)
    (fetch : Int → Int → Int → List Fields) (sendOk : Bool) (queueAccept : Bool) :
    Except String (SourceState × CycleOutcome) :=
  let w := getWatermark mode ss
  let lastTs1 := applyStartFrom mode startFrom w.2.1
  let lastTs2 := applyLookback lastTs1 lookbackMinutes
  let lastTs3 :=
    match reprocessFrom with
    | some t => if mode = "ts" then min lastTs2 t else lastTs2
    | none => lastTs2
  let rows := fetch w.1 lastTs3 w.2.2
  if rows.isEmpty then .ok (ss, .noRows)
  else if sendOk then do
    let wm ← watermarkFromBatch mode idCol tsCol tieCol rows
    .ok (updateSourceState wm.1 wm.2.1 wm.2.2, .sent)
  else .ok (ss, if queueAccept then .queued else .dropped)

/-- One valid queued item's replay in the drain loop of `main.run`:
`send_batch` short-circuits an empty `rows` list to success without
touching the transport, then the watermark computed from the item's rows
is persisted for its source; a delivery failure leaves the state
untouched (and stops the drain).  The returned flag is whether the item
was delivered. -/
def replayItem (mode idCol tsCol tieCol : String) (ss : SourceState)
    (rows : List Fields) (sendOk : Bool) : Except String (SourceState × Bool) :=
  let delivered := if rows.isEmpty then true else sendOk
  if delivered then do
    let wm ← watermarkFromBatch mode idCol tsCol tieCol rows
    .ok (updateSourceState wm.1 wm.2.1 wm.2.2, true)
  else .ok (ss, false)

/-- Model of `sender._normalize_value`: datetimes and dates render as ISO-8601
text; every other value is passed through.  Applied to top-level row
values only. -/
def normalizeValueS : Value → Value
  | .vTs t => .vTsStr t
  | v => v

/-- Model of `sender._normalize_batch`'s per-row dict comprehension. -/
def normalizeRowS : Fields → Fields
  | .nil => .nil
  | .cons k v rest => .cons k (normalizeValueS v) (normalizeRowS rest)

/- Whether `json.dumps` (without a `default` fallback, as `requests.post`
with `json=` and `rewrite_queue` use it) accepts a value: raw datetimes
and opaque objects (bytes, Decimal, ...) raise `TypeError`. -/
mutual

/-- Whether `json.dumps` accepts the value without raising. -/
def serializableValue : Value → Bool
  | .vInt _ => true
  | .vTs _ => false
  | .vTsStr _ => true
  | .vStr _ => true
  | .vNone => true
  | .vOpaque _ => false
  | .vObj fields => serializableFields fields

/-- Whether `json.dumps` accepts every value of the dict without raising. -/
def serializableFields : Fields → Bool
  | .nil => true
  | .cons _ v rest => serializableValue v && serializableFields rest

end

/-- What the HTTP transport (`requests.post`) did: a response with a
status code, or a raised `requests.RequestException`. -/
inductive TransportOutcome where
  | resp (status : Nat)
  | reqExc (msg : String)

/-- Model of `sender.send_batch`: an empty batch short-circuits to success; the
batch is normalized, serialized (a non-JSON-serializable value raises
`TypeError`, which the `except requests.RequestException` clause does not
catch, so it escapes as an error), and posted; a 2xx status is success,
any other status or a `RequestException` is failure. -/
def sendBatch (post : List Fields → TransportOutcome) (batch : List Fields) :
    Except String Bool :=
  if batch.isEmpty then .ok true
  else
    let payload := batch.map normalizeRowS
    if payload.all serializableFields then
      match post payload with
      | .resp status => if 200 ≤ status ∧ status < 300 then .ok true else .ok false
      | .reqExc _ => .ok false
    else .error "TypeError: Object of this type is not JSON serializable"

/-- The `str()` rendering of a datetime, as `json.dumps(..., default=str)`
applies it in `append_queue`; an opaque text distinct from the datetime
value itself. -/
def strOfTs (t : Int) : String := "datetime-str:" ++ toString t

/- `json.loads(json.dumps(x, default=str))`: the content an appended item
has when it is later parsed by `load_queue`.  JSON-native values round
trip unchanged; a raw datetime or opaque object is coerced to its `str()`
text. -/
mutual

/-- JSON round trip (with the `default=str` fallback) of one value. -/
def jsonValue : Value → Value
  | .vInt n => .vInt n
  | .vTs t => .vStr (strOfTs t)
  | .vTsStr t => .vTsStr t
  | .vStr s => .vStr s
  | .vNone => .vNone
  | .vOpaque tag => .vStr tag
  | .vObj fields => .vObj (jsonFields fields)

/-- JSON round trip (with the `default=str` fallback) of a dict. -/
def jsonFields : Fields → Fields
  | .nil => .nil
  | .cons k v rest => .cons k (jsonValue v) (jsonFields rest)

end

/-- A sequence of `append_queue` calls on dict items: what `load_queue`
later yields for an appended item is its JSON round trip. -/
def appendAllJson (sizeFn : QLine Fields → Nat) (maxMb : Int) (store : QStore Fields)
    (items : List Fields) : QStore Fields × Bool :=
  items.foldl
    (fun acc it =>
      let step := appendQueue sizeFn acc.1 (jsonFields it) maxMb
      (step.1, acc.2 && step.2))
    (store, true)

/-- A dot-separated identifier part as the spec's "non-empty, matches the
alphanumeric-plus-underscore pattern" reads: non-empty and every character
alphanumeric or an underscore. -/
def specPartOk (p : List Char) : Bool :=
  !p.isEmpty && p.all (fun c => pyIsAlnum c || c = '_')

/-- The validation `_quote_identifier` actually performs on a part:
non-empty, every character alphanumeric or an underscore, and at least one
character alphanumeric (an all-underscore part is rejected, because
`"".isalnum()` is false after the underscores are stripped). -/
def codePartOk (p : List Char) : Bool :=
  !p.isEmpty && p.all (fun c => pyIsAlnum c || c = '_') && p.any pyIsAlnum

/-- The identifiers `_quote_identifier` accepts: every dot-separated part
passes `codePartOk`. -/
def validIdent (name : String) : Bool :=
  (splitDot name.toList).all codePartOk

/-- The bracket-quoted form `_quote_identifier` returns on success. -/
def quotedForm (name : String) : String :=
  joinWith "." ((splitDot name.toList).map (fun p => "[" ++ String.mk p ++ "]"))

/-- Lexicographic comparison of `(ts, tie)` pairs, the order the spec's
"lexicographically greatest pair" refers to. -/
def lexLe (p q : Int × Int) : Prop :=
  p.1 < q.1 ∨ (p.1 = q.1 ∧ p.2 ≤ q.2)

theorem str_append_ne_empty (a b : String) (h : b.length ≠ 0) : a ++ b ≠ "" := by
  intro he
  have hl : (a ++ b).length = 0 := by rw [he]; rfl
  rw [String.length_append] at hl
  omega

theorem le_foldl_max (l : List Int) (a : Int) : a ≤ l.foldl max a := by
  induction l generalizing a with
  | nil => exact le_refl a
  | cons x xs ih => exact le_trans (le_max_left a x) (ih (max a x))

theorem foldl_max_mem (l : List Int) (a : Int) : l.foldl max a ∈ a :: l := by
  induction l generalizing a with
  | nil => simp
  | cons x xs ih =>
    have h := ih (max a x)
    rw [List.foldl_cons]
    rcases List.mem_cons.mp h with h2 | h2
    · rw [h2]
      rcases max_choice a x with h3 | h3 <;> rw [h3] <;> simp
    · exact List.mem_cons.mpr (Or.inr (List.mem_cons.mpr (Or.inr h2)))

theorem foldl_max_ub (l : List Int) (a : Int) : ∀ x ∈ a :: l, x ≤ l.foldl max a := by
  induction l generalizing a with
  | nil =>
    intro x hx
    rw [List.mem_singleton] at hx
    exact hx ▸ le_refl a
  | cons y ys ih =>
    intro x hx
    rcases List.mem_cons.mp hx with rfl | hx2
    · exact le_trans (le_max_left x y) (ih (max x y) _ (List.mem_cons_self _ _))
    rcases List.mem_cons.mp hx2 with rfl | hx3
    · exact le_trans (le_max_right a x) (ih (max a x) _ (List.mem_cons_self _ _))
    · exact ih (max a y) x (List.mem_cons.mpr (Or.inr hx3))

theorem lexLe_trans {p q r : Int × Int} (h1 : lexLe p q) (h2 : lexLe q r) : lexLe p r := by
  unfold lexLe at *
  omega

theorem lexStep_choice (b p : Int × Int) : lexStep b p = b ∨ lexStep b p = p := by
  unfold lexStep
  split
  · exact Or.inr rfl
  · exact Or.inl rfl

theorem lexLe_lexStep_left (b p : Int × Int) : lexLe b (lexStep b p) := by
  unfold lexStep lexLe
  split <;> omega

theorem lexLe_lexStep_right (b p : Int × Int) : lexLe p (lexStep b p) := by
  unfold lexStep lexLe
  split <;> omega

theorem le_foldl_lexStep (l : List (Int × Int)) (a : Int × Int) :
    lexLe a (l.foldl lexStep a) := by
  induction l generalizing a with
  | nil =>
    simp only [List.foldl_nil]
    unfold lexLe
    omega
  | cons x xs ih => exact lexLe_trans (lexLe_lexStep_left a x) (ih (lexStep a x))

theorem foldl_lexStep_mem (l : List (Int × Int)) (a : Int × Int) :
    l.foldl lexStep a ∈ a :: l := by
  induction l generalizing a with
  | nil => simp
  | cons x xs ih =>
    have h := ih (lexStep a x)
    rw [List.foldl_cons]
    rcases List.mem_cons.mp h with h2 | h2
    · rw [h2]
      rcases lexStep_choice a x with h3 | h3 <;> rw [h3] <;> simp
    · exact List.mem_cons.mpr (Or.inr (List.mem_cons.mpr (Or.inr h2)))

theorem foldl_lexStep_ub (l : List (Int × Int)) (a : Int × Int) :
    ∀ p ∈ a :: l, lexLe p (l.foldl lexStep a) := by
  induction l generalizing a with
  | nil =>
    intro p hp
    rw [List.mem_singleton] at hp
    subst hp
    simp only [List.foldl_nil]
    unfold lexLe
    omega
  | cons y ys ih =>
    intro p hp
    rcases List.mem_cons.mp hp with rfl | hp2
    · exact lexLe_trans (lexLe_lexStep_left p y) (ih (lexStep p y) _ (List.mem_cons_self _ _))
    rcases List.mem_cons.mp hp2 with rfl | hp3
    · exact lexLe_trans (lexLe_lexStep_right a p) (ih (lexStep a p) _ (List.mem_cons_self _ _))
    · exact ih (lexStep a y) p (List.mem_cons.mpr (Or.inr hp3))

theorem pyIsAlnum_underscore : pyIsAlnum '_' = false := by decide

theorem reject_iff_not_codePartOk (p : List Char) :
    (p.isEmpty || !strippedIsAlnum p) = !(!p.isEmpty && strippedIsAlnum p) := by
  rw [Bool.not_and, Bool.not_not]

theorem accept_eq_codePartOk (p : List Char) :
    (!p.isEmpty && strippedIsAlnum p) = codePartOk p := by
  unfold strippedIsAlnum codePartOk
  rw [Bool.eq_iff_iff]
  simp only [Bool.and_eq_true, Bool.not_eq_true', List.isEmpty_eq_false, List.all_eq_true,
    List.any_eq_true, List.mem_filter, List.isEmpty_eq_true, decide_eq_true_eq,
    Bool.or_eq_true, ne_eq]
  constructor
  · rintro ⟨hne, hfne, hall⟩
    obtain ⟨c, hc⟩ := List.exists_mem_of_ne_nil _ hfne
    rw [List.mem_filter] at hc
    have hcu : ¬c = '_' := by simpa using hc.2
    refine ⟨⟨hne, ?_⟩, c, hc.1, hall c ⟨hc.1, hcu⟩⟩
    intro d hd
    by_cases hdu : d = '_'
    · exact Or.inr hdu
    · exact Or.inl (hall d ⟨hd, hdu⟩)
  · rintro ⟨⟨hne, hall⟩, c, hcmem, hcal⟩
    have hcu : ¬c = '_' := by
      intro hcon
      rw [hcon, pyIsAlnum_underscore] at hcal
      exact Bool.false_ne_true hcal
    refine ⟨hne, ?_, ?_⟩
    · intro hfil
      have hmem : c ∈ List.filter (fun c => decide ¬c = '_') p := by
        rw [List.mem_filter]
        exact ⟨hcmem, by simpa using hcu⟩
      rw [hfil] at hmem
      simp at hmem
    · rintro d ⟨hd, hdu⟩
      rcases hall d hd with h | h
      · exact h
      · exact absurd h hdu

theorem quotePartsAux_eq (name : String) (parts : List (List Char)) :
    quotePartsAux name parts =
      if parts.all codePartOk then .ok (parts.map (fun p => "[" ++ String.mk p ++ "]"))
      else .error ("Invalid SQL identifier: " ++ name) := by
  induction parts with
  | nil => rfl
  | cons p rest ih =>
    rw [quotePartsAux, List.all_cons, List.map_cons]
    by_cases h : (p.isEmpty || !strippedIsAlnum p) = true
    · have hcode : codePartOk p = false := by
        rw [← accept_eq_codePartOk]
        rw [reject_iff_not_codePartOk, Bool.not_eq_true'] at h
        exact h
      rw [if_pos h, hcode]
      rw [if_neg (by simp)]
    · have hcode : codePartOk p = true := by
        rw [← accept_eq_codePartOk]
        rw [reject_iff_not_codePartOk, Bool.not_eq_true', Bool.not_eq_false] at h
        exact h
      rw [if_neg h, ih]
      by_cases h2 : rest.all codePartOk = true
      · rw [if_pos h2, if_pos (by rw [hcode, h2]; rfl)]
        rfl
      · rw [if_neg h2, if_neg (by rw [hcode]; simpa using h2)]
        rfl

/-- C9 (corrected): `_quote_identifier` succeeds exactly when every
dot-separated part of the identifier is non-empty, consists only of
alphanumeric characters and underscores, AND contains at least one
alphanumeric character (`validIdent`); on success it returns the
bracket-quoted form, otherwise it fails with the invalid-identifier error
before any SQL is generated.  The original claim (success exactly on
non-empty parts matching the alphanumeric-plus-underscore pattern) fails
on all-underscore parts, see the counterexample. -/
theorem c9_identifier_validation (name : String) :
    quoteIdentifier name =
      if validIdent name then .ok (quotedForm name)
      else .error ("Invalid SQL identifier: " ++ name) := by
  unfold quoteIdentifier validIdent quotedForm
  rw [quotePartsAux_eq]
  by_cases h : (splitDot name.toList).all codePartOk = true
  · rw [if_pos h, if_pos h]
    rfl
  · rw [if_neg h, if_neg h]
    rfl

/-- C9 counterexample: the identifier `"_"` has a single non-empty part
matching the alphanumeric-plus-underscore pattern (`specPartOk`, the
claim's stated condition), yet `_quote_identifier` rejects it, because
stripping underscores leaves the empty string, which `isalnum` refuses. -/
theorem c9_counterexample :
    quoteIdentifier "_" = .error "Invalid SQL identifier: _"
    ∧ splitDot "_".toList = [['_']]
    ∧ specPartOk ['_'] = true := ⟨rfl, rfl, rfl⟩

/-- C10 (corrected): reading a source's watermark defaults a missing
`last_id` to `0` and treats a missing `last_ts` as absent (the
`datetime(1900, 1, 1)` sentinel after normalization), but a missing
`last_tie` defaults to the value read for `last_id` — it reads as zero
only when `last_id` is itself missing.  With every key missing the result
is `(0, sentinel, 0)`. -/
theorem c10_watermark_defaults :
    (∀ mode, getWatermark mode ⟨none, none, none⟩ = (0, epoch1900, 0))
    ∧ ∀ ss : SourceState,
        (getWatermark "ts" ss).1 = ss.lastId?.getD 0
        ∧ (getWatermark "ts" ss).2.1 = ss.lastTs?.getD epoch1900
        ∧ (getWatermark "ts" ss).2.2 = ss.lastTie?.getD (ss.lastId?.getD 0) := by
  constructor
  · intro mode
    unfold getWatermark
    simp only [Option.getD_none]
    split <;> rfl
  · intro ss
    refine ⟨rfl, ?_, rfl⟩
    unfold getWatermark
    cases ss.lastTs? <;> rfl

/-- C10 counterexample: a stored entry `{"last_id": 7}` with `last_tie`
missing reads back `last_tie = 7`, not the zero the claim states. -/
theorem c10_counterexample :
    getWatermark "ts" ⟨some 7, none, none⟩ = (7, epoch1900, 7)
    ∧ (getWatermark "ts" ⟨some 7, none, none⟩).2.2 ≠ 0 := ⟨rfl, by decide⟩

/-- C6: with a positive cap of `maxMb` megabytes, once the backing store's
byte size is at or above `maxMb * 1048576`, an append is rejected and the
store is returned unmodified; with a non-positive cap (0 means unbounded)
an append always succeeds, adding one line to the store. -/
theorem c6_queue_cap {α : Type} (sizeFn : QLine α → Nat) (store : QStore α) (item : α)
    (maxMb : Int) :
    (0 < maxMb → maxMb * 1048576 ≤ (storeSizeBytes sizeFn store : Int) →
      appendQueue sizeFn store item maxMb = (store, false))
    ∧ (maxMb ≤ 0 →
      appendQueue sizeFn store item maxMb = (some (store.getD [] ++ [QLine.good item]), true)) := by
  constructor
  · intro hpos hsize
    have hcan : canAppend sizeFn store maxMb = false := by
      unfold canAppend
      rw [if_neg (by omega)]
      cases store with
      | none =>
        exfalso
        have h0 : maxMb * 1048576 ≤ ((0 : Nat) : Int) := hsize
        norm_num at h0
        have h1 : (0 : Int) < maxMb * 1048576 := by positivity
        omega
      | some lines =>
        set s : Nat := (lines.map sizeFn).sum with hsdef
        have hs2 : maxMb * 1048576 ≤ (s : Int) := hsize
        rw [decide_eq_false_iff_not, not_lt, le_div_iff₀ (by norm_num)]
        have hs3 : ((maxMb * 1048576 : Int) : ℚ) ≤ (((s : Nat) : Int) : ℚ) :=
          Int.cast_le.mpr hs2
        push_cast at hs3
        exact hs3
    simp [appendQueue, hcan]
  · intro hle
    unfold appendQueue canAppend
    rw [if_pos hle]
    rfl

/-- C6 witness: a one-line store of exactly one megabyte with a cap of 1
rejects an append unmodified; the same store with cap 0 accepts it. -/
theorem c6_witness :
    appendQueue (fun _ => 1048576) (some [QLine.good (1 : Nat)]) 2 1
      = (some [QLine.good 1], false)
    ∧ appendQueue (fun _ => 1048576) (some [QLine.good (1 : Nat)]) 2 0
      = (some [QLine.good 1, QLine.good 2], true) := by
  constructor
  · exact (c6_queue_cap (fun _ => 1048576) (some [QLine.good (1 : Nat)]) 2 1).1
      (by decide) (by decide)
  · exact (c6_queue_cap (fun _ => 1048576) (some [QLine.good (1 : Nat)]) 2 0).2 (by decide)

/-- C8 (corrected): for a batch whose rows are JSON-serializable after
normalization, `send_batch` returns a boolean (transport exceptions and
non-2xx statuses are reported as `false`, not raised), and the empty batch
short-circuits to success.  The original "never raises for arbitrary
payload values" fails on non-JSON-serializable values, see the
counterexample. -/
theorem c8_send_batch (post : List Fields → TransportOutcome) (batch : List Fields) :
    ((batch.map normalizeRowS).all serializableFields = true →
      ∃ b, sendBatch post batch = .ok b)
    ∧ sendBatch post ([] : List Fields) = .ok true := by
  constructor
  · intro h
    cases batch with
    | nil => exact ⟨true, rfl⟩
    | cons r rs =>
      unfold sendBatch
      rw [if_neg (by simp)]
      rw [if_pos h]
      cases hp : post ((r :: rs).map normalizeRowS) with
      | resp status =>
        by_cases hs : 200 ≤ status ∧ status < 300
        · exact ⟨true, by simp [hs.1, hs.2]⟩
        · exact ⟨false, by simp [hs]⟩
      | reqExc m =>
        exact ⟨false, rfl⟩
  · rfl

/-- C8 counterexample: a batch holding a value that is not JSON
serializable (bytes, Decimal, ...) makes `send_batch` raise a `TypeError`
out of the function — the `except requests.RequestException` clause does
not catch it — even though the transport itself would have returned 200. -/
theorem c8_counterexample :
    sendBatch (fun _ => .resp 200) [Fields.cons "x" (.vOpaque "bytes") .nil]
      = .error "TypeError: Object of this type is not JSON serializable" := rfl

/-- C8 witness: a serializable one-row batch gets a boolean result. -/
theorem c8_witness :
    ∃ b, sendBatch (fun _ => .resp 200) [Fields.cons "x" (.vInt 1) .nil] = .ok b :=
  (c8_send_batch (fun _ => .resp 200) [Fields.cons "x" (.vInt 1) .nil]).1 rfl

/-- C2: on a non-empty batch whose rows carry the needed columns,
`_watermark_from_batch` computes: in id mode the maximum id across the
batch with no ts/tie component; in ts mode the lexicographically greatest
`(ts, tie)` pair as the new `(last_ts, last_tie)`, with `last_id` set
equal to the winning tie value. -/
theorem c2_watermark_computation (idCol tsCol tieCol : String) (b0 : Fields)
    (rest : List Fields) :
    (∀ i0 is, rowIdVal idCol b0 = .ok i0 → mapE (rowIdVal idCol) rest = .ok is →
      watermarkFromBatch "id" idCol tsCol tieCol (b0 :: rest) = .ok (is.foldl max i0, none, none)
      ∧ is.foldl max i0 ∈ i0 :: is
      ∧ ∀ i ∈ i0 :: is, i ≤ is.foldl max i0)
    ∧ (∀ p0 ps, rowTsTie tsCol tieCol b0 = .ok p0 → mapE (rowTsTie tsCol tieCol) rest = .ok ps →
      watermarkFromBatch "ts" idCol tsCol tieCol (b0 :: rest)
        = .ok ((ps.foldl lexStep p0).2, some (ps.foldl lexStep p0).1, some (ps.foldl lexStep p0).2)
      ∧ ps.foldl lexStep p0 ∈ p0 :: ps
      ∧ ∀ p ∈ p0 :: ps, lexLe p (ps.foldl lexStep p0)) := by
  constructor
  · intro i0 is h1 h2
    refine ⟨?_, foldl_max_mem is i0, foldl_max_ub is i0⟩
    have hred : watermarkFromBatch "id" idCol tsCol tieCol (b0 :: rest)
        = Except.bind (rowIdVal idCol b0) (fun j =>
            Except.bind (mapE (rowIdVal idCol) rest) (fun js =>
              Except.ok (js.foldl max j, none, none))) := rfl
    rw [hred, h1, h2]
    rfl
  · intro p0 ps h1 h2
    refine ⟨?_, foldl_lexStep_mem ps p0, foldl_lexStep_ub ps p0⟩
    have hred : watermarkFromBatch "ts" idCol tsCol tieCol (b0 :: rest)
        = Except.bind (rowTsTie tsCol tieCol b0) (fun q =>
            Except.bind (mapE (rowTsTie tsCol tieCol) rest) (fun qs =>
              Except.ok ((qs.foldl lexStep q).2, some (qs.foldl lexStep q).1,
                some (qs.foldl lexStep q).2))) := rfl
    rw [hred, h1, h2]
    rfl

/-- C2 witness: an id-mode batch with ids 3 and 7 yields watermark
`(7, absent, absent)`; a ts-mode batch with pairs (100, 1) and (200, 2)
yields `(2, 200, 2)`. -/
theorem c2_witness :
    watermarkFromBatch "id" "id" "ts" "tie"
        [Fields.cons "id" (.vInt 3) .nil, Fields.cons "id" (.vInt 7) .nil]
      = .ok (7, none, none)
    ∧ watermarkFromBatch "ts" "id" "ts" "tie"
        [Fields.cons "ts" (.vTs 100) (.cons "tie" (.vInt 1) .nil),
         Fields.cons "ts" (.vTs 200) (.cons "tie" (.vInt 2) .nil)]
      = .ok (2, some 200, some 2) := by
  constructor
  · exact ((c2_watermark_computation "id" "ts" "tie" (Fields.cons "id" (.vInt 3) .nil)
      [Fields.cons "id" (.vInt 7) .nil]).1 3 [7] rfl rfl).1
  · exact ((c2_watermark_computation "id" "ts" "tie"
      (Fields.cons "ts" (.vTs 100) (.cons "tie" (.vInt 1) .nil))
      [Fields.cons "ts" (.vTs 200) (.cons "tie" (.vInt 2) .nil)]).2 (100, 1) [(200, 2)]
      rfl rfl).1

theorem filterMap_good {α : Type} (l : List α) :
    (l.map QLine.good).filterMap
      (fun ql => match ql with | QLine.good item => some item | _ => none) = l := by
  induction l with
  | nil => rfl
  | cons x xs ih => simp [List.filterMap_cons, ih]

theorem loadQueue_rewriteQueue {α : Type} (items : List α) :
    loadQueue (rewriteQueue items) = items := by
  cases items with
  | nil => rfl
  | cons x xs =>
    unfold rewriteQueue loadQueue
    rw [if_neg (by simp)]
    exact filterMap_good (x :: xs)

/-- C4: the queue drain attempts items strictly in append order; when every
earlier item is either invalid (skipped) or delivered, the first valid item
whose delivery fails stops the drain and the rewritten queue is exactly
that item and everything after it, in order; when no valid item fails, the
queue drains to empty. -/
theorem c4_drain_ordering {α : Type} (valid deliver : α → Bool) :
    (∀ l1 (b : α) l2, (∀ x ∈ l1, valid x = false ∨ deliver x = true) →
      valid b = true → deliver b = false →
      drainRemaining valid deliver (l1 ++ b :: l2) = b :: l2
      ∧ loadQueue (rewriteQueue (drainRemaining valid deliver (l1 ++ b :: l2))) = b :: l2)
    ∧ ∀ l, (∀ x ∈ l, valid x = false ∨ deliver x = true) →
        drainRemaining valid deliver l = [] := by
  have hdrop : ∀ l1 (b : α) l2, (∀ x ∈ l1, valid x = false ∨ deliver x = true) →
      valid b = true → deliver b = false →
      drainRemaining valid deliver (l1 ++ b :: l2) = b :: l2 := by
    intro l1 b l2 hok hv hd
    induction l1 with
    | nil =>
      rw [List.nil_append]
      unfold drainRemaining
      rw [hv, hd]
      simp
    | cons a l1' ih =>
      have ha := hok a (List.mem_cons_self a l1')
      have ih2 := ih (fun x hx => hok x (List.mem_cons_of_mem a hx))
      cases hva : valid a with
      | false =>
        rw [List.cons_append]
        unfold drainRemaining
        rw [hva]
        simpa using ih2
      | true =>
        rcases ha with ha | ha
        · rw [hva] at ha
          exact absurd ha (by simp)
        · rw [List.cons_append]
          unfold drainRemaining
          rw [hva, ha]
          simpa using ih2
  have hall : ∀ l, (∀ x ∈ l, valid x = false ∨ deliver x = true) →
      drainRemaining valid deliver l = [] := by
    intro l hok
    induction l with
    | nil => rfl
    | cons a l' ih =>
      have ha := hok a (List.mem_cons_self a l')
      have ih2 := ih (fun x hx => hok x (List.mem_cons_of_mem a hx))
      cases hva : valid a with
      | false =>
        unfold drainRemaining
        rw [hva]
        simpa using ih2
      | true =>
        rcases ha with ha | ha
        · rw [hva] at ha
          exact absurd ha (by simp)
        · unfold drainRemaining
          rw [hva, ha]
          simpa using ih2
  refine ⟨fun l1 b l2 hok hv hd => ?_, hall⟩
  have h1 := hdrop l1 b l2 hok hv hd
  rw [h1]
  exact ⟨rfl, loadQueue_rewriteQueue (b :: l2)⟩

/-- C4 witness: a queue `[A, B, C] = [1, 2, 3]` where every item is valid,
item 2's delivery fails and the others succeed, rewrites to `[2, 3]`. -/
theorem c4_witness :
    drainRemaining (fun _ => true) (fun n => decide (n ≠ 2)) ([1] ++ 2 :: [3]) = 2 :: [3] :=
  ((c4_drain_ordering (fun _ => true) (fun n => decide (n ≠ 2))).1 [1] 2 [3]
    (by decide) rfl (by decide)).1

/-- C5 (code bug): in the fresh-extraction path an empty batch leaves the
source state untouched (`.noRows`), as the claim states; but replaying a
queued item whose `rows` list is empty short-circuits `send_batch` to
success and then persists `_watermark_from_batch([]) = (0, None, None)`,
replacing a stored watermark `{"last_id": 5}` with `{"last_id": 0}` — the
claim fails on the queue-replay path. -/
theorem c5_empty_batch_watermark :
    (∀ mode idCol tsCol tieCol startFrom lookbackM reprocessFrom ss sendOk queueAccept,
      processSource mode idCol tsCol tieCol startFrom lookbackM reprocessFrom ss
        (fun _ _ _ => []) sendOk queueAccept = .ok (ss, .noRows))
    ∧ replayItem "id" "id" "ts" "tie" ⟨some 5, none, none⟩ [] false
        = .ok (⟨some 0, none, none⟩, true)
    ∧ (⟨some 0, none, none⟩ : SourceState) ≠ ⟨some 5, none, none⟩ := by
  refine ⟨?_, rfl, by decide⟩
  intro mode idCol tsCol tieCol startFrom lookbackM reprocessFrom ss sendOk queueAccept
  rfl

theorem loadQueue_some {α : Type} (ls : List (QLine α)) :
    loadQueue (some ls)
      = ls.filterMap (fun l => match l with | QLine.good item => some item | _ => none) := rfl

theorem loadQueue_append_line {α : Type} (ls : List (QLine α)) (x : α) :
    loadQueue (some (ls ++ [QLine.good x])) = loadQueue (some ls) ++ [x] := by
  rw [loadQueue_some, loadQueue_some, List.filterMap_append]
  rfl

theorem loadQueue_getD {α : Type} (store : QStore α) :
    loadQueue (some (store.getD [])) = loadQueue store := by
  cases store <;> rfl

theorem appendAllJson_false (sizeFn : QLine Fields → Nat) (maxMb : Int)
    (items : List Fields) : ∀ st : QStore Fields,
    (items.foldl
      (fun acc it =>
        let step := appendQueue sizeFn acc.1 (jsonFields it) maxMb
        (step.1, acc.2 && step.2)) (st, false)).2 = false := by
  induction items with
  | nil => intro st; rfl
  | cons it rest ih =>
    intro st
    rw [List.foldl_cons]
    simp only [Bool.false_and]
    exact ih (appendQueue sizeFn st (jsonFields it) maxMb).1

theorem appendAllJson_load (sizeFn : QLine Fields → Nat) (maxMb : Int)
    (items : List Fields) : ∀ store st' : QStore Fields,
    appendAllJson sizeFn maxMb store items = (st', true) →
    loadQueue st' = loadQueue store ++ items.map jsonFields := by
  induction items with
  | nil =>
    intro store st' h
    unfold appendAllJson at h
    rw [List.foldl_nil] at h
    cases h
    simp
  | cons it rest ih =>
    intro store st' h
    unfold appendAllJson at h
    rw [List.foldl_cons] at h
    by_cases hacc : canAppend sizeFn store maxMb = true
    · have happ : appendQueue sizeFn store (jsonFields it) maxMb
          = (some (store.getD [] ++ [QLine.good (jsonFields it)]), true) := by
        unfold appendQueue
        rw [if_pos hacc]
      rw [happ] at h
      simp only [Bool.true_and] at h
      have hload := ih (some (store.getD [] ++ [QLine.good (jsonFields it)])) st' h
      rw [hload, loadQueue_append_line, loadQueue_getD, List.map_cons]
      rw [List.append_assoc]
      rfl
    · have happ : appendQueue sizeFn store (jsonFields it) maxMb = (store, false) := by
        unfold appendQueue
        rw [if_neg hacc]
      rw [happ] at h
      simp only [Bool.true_and, Bool.and_false] at h
      exfalso
      have h2 := congrArg Prod.snd h
      simp only at h2
      rw [appendAllJson_false sizeFn maxMb rest store] at h2
      exact Bool.false_ne_true h2

/-- C7 (corrected): rewriting with the empty list removes the backing file
and a subsequent load yields the empty sequence; a sequence of accepted
appends followed by a load returns exactly the appended items in order,
provided each item's content is a fixed point of the JSON round trip
(JSON-representable values, which all agent-produced queue items are).
The original unrestricted claim fails because `append_queue` serializes
with `json.dumps(..., default=str)`, which coerces raw datetimes and other
non-JSON values to strings, so such items load back with different
content — see the counterexample. -/
theorem c7_queue_round_trip (sizeFn : QLine Fields → Nat) (maxMb : Int) :
    (rewriteQueue ([] : List Fields) = none
      ∧ loadQueue (rewriteQueue ([] : List Fields)) = [])
    ∧ ∀ items st', appendAllJson sizeFn maxMb none items = (st', true) →
        (∀ it ∈ items, jsonFields it = it) →
        loadQueue st' = items := by
  refine ⟨⟨rfl, rfl⟩, ?_⟩
  intro items st' h hfix
  rw [appendAllJson_load sizeFn maxMb items none st' h]
  have hmap : items.map jsonFields = items := by
    calc items.map jsonFields = items.map id := List.map_congr_left hfix
      _ = items := List.map_id items
  rw [hmap]
  rfl

/-- C7 counterexample: appending (under cap 0, so accepted) a single item
holding a raw datetime value and loading the queue back does not return
the item with the same content: `default=str` turned the datetime into its
text rendering. -/
theorem c7_counterexample :
    (appendAllJson (fun _ => 1) 0 none [Fields.cons "a" (.vTs 0) .nil]).2 = true
    ∧ loadQueue (appendAllJson (fun _ => 1) 0 none [Fields.cons "a" (.vTs 0) .nil]).1
        = [Fields.cons "a" (.vStr (strOfTs 0)) .nil]
    ∧ Value.vStr (strOfTs 0) ≠ Value.vTs 0 :=
  ⟨rfl, rfl, fun h => Value.noConfusion h⟩

/-- C7 witness: one JSON-representable item appended under cap 0 loads
back unchanged. -/
theorem c7_witness :
    loadQueue (some [QLine.good (Fields.cons "a" (.vInt 3) .nil)])
      = [Fields.cons "a" (.vInt 3) .nil] :=
  (c7_queue_round_trip (fun _ => 1) 0).2 [Fields.cons "a" (.vInt 3) .nil]
    (some [QLine.good (Fields.cons "a" (.vInt 3) .nil)]) rfl
    (by
      intro it hit
      rw [List.mem_singleton] at hit
      subst hit
      rfl)

/-- C3: for a ts-mode source with positive `lookback_minutes = L`,
persisted `last_ts = T` and a configured `start_from` floor, the effective
cursor handed to the extractor is `max(T, start_from) - L` minutes (60·L
on the seconds timeline); on a successful delivery of a non-empty batch
the persisted watermark is `_watermark_from_batch` of the fetched rows —
and, with the batch held fixed, the persisted result does not depend on
the lookback at all (it is never computed from the rewound cursor). -/
theorem c3_lookback_rewind (idCol tsCol tieCol : String) (sf T L : Int) (hL : 0 < L)
    (ss : SourceState) (hT : ss.lastTs? = some T)
    (fetch : Int → Int → Int → List Fields) (qa : Bool) :
    applyLookback (applyStartFrom "ts" (some sf) T) L = max T sf - L * 60
    ∧ (∀ rows, rows = fetch (getWatermark "ts" ss).1 (max T sf - L * 60)
          (getWatermark "ts" ss).2.2 →
        rows ≠ [] →
        processSource "ts" idCol tsCol tieCol (some sf) L none ss fetch true qa
          = Bind.bind (watermarkFromBatch "ts" idCol tsCol tieCol rows)
              (fun wm => Except.ok (updateSourceState wm.1 wm.2.1 wm.2.2, CycleOutcome.sent)))
    ∧ ∀ (batch : List Fields) (L1 L2 : Int) (qa1 qa2 : Bool),
        processSource "ts" idCol tsCol tieCol (some sf) L1 none ss (fun _ _ _ => batch) true qa1
        = processSource "ts" idCol tsCol tieCol (some sf) L2 none ss
            (fun _ _ _ => batch) true qa2 := by
  have hw : (getWatermark "ts" ss).2.1 = T := by
    unfold getWatermark
    rw [hT]
    rfl
  have hcur : applyLookback (applyStartFrom "ts" (some sf) T) L = max T sf - L * 60 := by
    unfold applyStartFrom applyLookback
    rw [if_neg (by omega), if_neg (by simp)]
  refine ⟨hcur, ?_, ?_⟩
  · intro rows hrows hne
    have hred : processSource "ts" idCol tsCol tieCol (some sf) L none ss fetch true qa
        = (if (fetch (getWatermark "ts" ss).1
              (applyLookback (applyStartFrom "ts" (some sf) (getWatermark "ts" ss).2.1) L)
              (getWatermark "ts" ss).2.2).isEmpty
           then Except.ok (ss, CycleOutcome.noRows)
           else Bind.bind (watermarkFromBatch "ts" idCol tsCol tieCol
                  (fetch (getWatermark "ts" ss).1
                    (applyLookback (applyStartFrom "ts" (some sf)
                      (getWatermark "ts" ss).2.1) L)
                    (getWatermark "ts" ss).2.2))
                (fun wm => Except.ok (updateSourceState wm.1 wm.2.1 wm.2.2,
                  CycleOutcome.sent))) := rfl
    rw [hred, hw, hcur, ← hrows, List.isEmpty_eq_false.mpr hne]
    simp
  · intro batch L1 L2 qa1 qa2
    have hgen : ∀ (L' : Int) (qa' : Bool),
        processSource "ts" idCol tsCol tieCol (some sf) L' none ss
            (fun _ _ _ => batch) true qa'
          = (if batch.isEmpty then Except.ok (ss, CycleOutcome.noRows)
             else Bind.bind (watermarkFromBatch "ts" idCol tsCol tieCol batch)
               (fun wm => Except.ok (updateSourceState wm.1 wm.2.1 wm.2.2,
                 CycleOutcome.sent))) := fun L' qa' => rfl
    rw [hgen L1 qa1, hgen L2 qa2]

/-- C3 witness: `start_from = 500`, persisted `last_ts = 1000`, lookback
10 minutes: the effective cursor is 400 (seconds), and delivering the
fetched one-row batch with `(ts, tie) = (2000, 2)` persists `(2, 2000, 2)`
— the batch's maximum, not the rewound cursor. -/
theorem c3_witness :
    applyLookback (applyStartFrom "ts" (some 500) 1000) 10 = 400
    ∧ processSource "ts" "id" "ts" "tie" (some 500) 10 none ⟨some 1, some 1000, some 1⟩
        (fun _ _ _ => [Fields.cons "ts" (.vTs 2000) (.cons "tie" (.vInt 2) .nil)]) true true
      = .ok (⟨some 2, some 2000, some 2⟩, .sent) := by
  have h := c3_lookback_rewind "id" "ts" "tie" 500 1000 10 (by decide)
    ⟨some 1, some 1000, some 1⟩ rfl
    (fun _ _ _ => [Fields.cons "ts" (.vTs 2000) (.cons "tie" (.vInt 2) .nil)]) true
  constructor
  · exact h.1.trans (by decide)
  · have h2 := h.2.1 [Fields.cons "ts" (.vTs 2000) (.cons "tie" (.vInt 2) .nil)] rfl
      (by simp)
    rw [h2]
    rfl

theorem bindE_ok {ε α β : Type} (a : α) (f : α → Except ε β) :
    Bind.bind (Except.ok a) f = f a := rfl

theorem bindE_error {ε α β : Type} (e : ε) (f : α → Except ε β) :
    Bind.bind (Except.error e : Except ε α) f = Except.error e := rfl

theorem joinWith_cons_ex (sep s : String) (l : List String) :
    ∃ t, joinWith sep (s :: l) = s ++ t := by
  cases l with
  | nil => exact ⟨"", (String.append_empty s).symm⟩
  | cons a as =>
    refine ⟨sep ++ joinWith sep (a :: as), ?_⟩
    show s ++ sep ++ joinWith sep (a :: as) = s ++ (sep ++ joinWith sep (a :: as))
    rw [String.append_assoc]

/-- C1: whenever `fetch_rows` successfully builds a query for a source and
cursor `(last_id, last_ts, last_tie)`: in id mode the bound parameters are
exactly `[last_id]`, the incremental WHERE clause is `alias.[id] > ?`
(present verbatim in the query text after ` WHERE `), and the query ends
with ` ORDER BY alias.[id]` (ascending by SQL default); in ts mode the
parameters are exactly `[last_ts, last_ts, last_tie]`, the clause is
`(alias.[ts] > ?) OR (alias.[ts] = ? AND alias.[tie] > ?)`, and the query
ends with ` ORDER BY alias.[ts] ASC, alias.[tie] ASC`; and for every other
cursor the built query text is identical — cursor values reach the query
only as bound parameters, never interpolated into the text. -/
theorem c1_incremental_query (src : SourceConfig) (lastId lastTs lastTie : Int)
    (batchSize : Nat) (q : String) (ps : List Value)
    (hq : buildQuery src lastId lastTs lastTie batchSize = .ok (q, ps)) :
    (src.incremental.mode = "id" →
      ps = [Value.vInt lastId]
      ∧ ∃ idSql, qualified (aliasFor src) src.incremental.id_column = .ok idSql
          ∧ buildWhere src.incremental lastId lastTs lastTie (aliasFor src)
              = .ok (idSql ++ " > ?", [Value.vInt lastId])
          ∧ (∃ pre rest, q = pre ++ " WHERE " ++ (idSql ++ " > ?") ++ rest)
          ∧ ∃ pre2, q = pre2 ++ " ORDER BY " ++ idSql)
    ∧ (src.incremental.mode = "ts" →
      ps = [Value.vTs lastTs, Value.vTs lastTs, Value.vInt lastTie]
      ∧ ∃ tsSql tieSql,
          qualified (aliasFor src) src.incremental.ts_column = .ok tsSql
          ∧ qualified (aliasFor src) src.incremental.tie_breaker = .ok tieSql
          ∧ buildWhere src.incremental lastId lastTs lastTie (aliasFor src)
              = .ok ("(" ++ tsSql ++ " > ?) OR (" ++ tsSql ++ " = ? AND " ++ tieSql ++ " > ?)",
                  [Value.vTs lastTs, Value.vTs lastTs, Value.vInt lastTie])
          ∧ (∃ pre rest, q = pre ++ " WHERE "
              ++ ("(" ++ tsSql ++ " > ?) OR (" ++ tsSql ++ " = ? AND " ++ tieSql ++ " > ?)")
              ++ rest)
          ∧ ∃ pre2, q = pre2 ++ " ORDER BY " ++ tsSql ++ " ASC, " ++ tieSql ++ " ASC")
    ∧ ∀ lastId2 lastTs2 lastTie2, ∃ ps2,
        buildQuery src lastId2 lastTs2 lastTie2 batchSize = .ok (q, ps2) := by
  by_cases hk : src.kind = "table"
  · cases hsel : buildSelect src with
    | error e =>
      exfalso
      unfold buildQuery at hq
      rw [if_pos hk, hsel, bindE_error] at hq
      exact absurd hq (by simp)
    | ok selectSql =>
    cases htab : quoteIdentifier src.table with
    | error e =>
      exfalso
      unfold buildQuery at hq
      rw [if_pos hk, hsel, bindE_ok, htab, bindE_error] at hq
      exact absurd hq (by simp)
    | ok tableSql =>
    have hal : aliasFor src = "t" := by
      unfold aliasFor
      rw [if_pos hk]
    by_cases hm : src.incremental.mode = "id"
    · cases hid : qualified "t" src.incremental.id_column with
      | error e =>
        exfalso
        have hw : buildWhere src.incremental lastId lastTs lastTie "t" = .error e := by
          unfold buildWhere
          rw [if_pos hm, hid, bindE_error]
        unfold buildQuery at hq
        rw [if_pos hk, hsel, bindE_ok, htab, bindE_ok, hw, bindE_error] at hq
        exact absurd hq (by simp)
      | ok idSql =>
      have hne : ¬(idSql ++ " > ?" = "") := str_append_ne_empty idSql " > ?" (by decide)
      have hkey : ∀ (a b c : Int), buildQuery src a b c batchSize
          = .ok ("SELECT TOP (" ++ toString batchSize ++ ") " ++ selectSql ++ " FROM "
              ++ tableSql ++ " AS t" ++ " WHERE "
              ++ joinWith " AND " ((idSql ++ " > ?")
                  :: (if src.filter = "" then [] else ["(" ++ src.filter ++ ")"]))
              ++ " ORDER BY " ++ idSql, [Value.vInt a]) := by
        intro a b c
        have hw : buildWhere src.incremental a b c "t"
            = .ok (idSql ++ " > ?", [Value.vInt a]) := by
          unfold buildWhere
          rw [if_pos hm, hid, bindE_ok]
        unfold buildQuery
        rw [if_pos hk, hsel, bindE_ok, htab, bindE_ok, hw, bindE_ok]
        simp only [if_neg hne, List.cons_append, List.nil_append, List.isEmpty_cons,
          Bool.false_eq_true, if_false, if_pos hm]
        rw [hid, bindE_ok]
      have hq2 := hq
      rw [hkey lastId lastTs lastTie] at hq2
      injection hq2 with hpair
      injection hpair with hq1 hps
      refine ⟨?_, ?_, ?_⟩
      · intro _
        refine ⟨hps.symm, idSql, ?_, ?_, ?_, ?_⟩
        · rw [hal]
          exact hid
        · rw [hal]
          unfold buildWhere
          rw [if_pos hm, hid, bindE_ok]
        · obtain ⟨t, ht⟩ := joinWith_cons_ex " AND " (idSql ++ " > ?")
            (if src.filter = "" then [] else ["(" ++ src.filter ++ ")"])
          refine ⟨"SELECT TOP (" ++ toString batchSize ++ ") " ++ selectSql ++ " FROM "
            ++ tableSql ++ " AS t", t ++ (" ORDER BY " ++ idSql), ?_⟩
          rw [← hq1, ht]
          simp [String.append_assoc]
        · exact ⟨"SELECT TOP (" ++ toString batchSize ++ ") " ++ selectSql ++ " FROM "
            ++ tableSql ++ " AS t" ++ " WHERE "
            ++ joinWith " AND " ((idSql ++ " > ?")
                :: (if src.filter = "" then [] else ["(" ++ src.filter ++ ")"])), hq1.symm⟩
      · intro hm2
        exact absurd (hm.symm.trans hm2) (by decide)
      · intro a b c
        exact ⟨[Value.vInt a], by rw [hkey a b c, hq1]⟩
    · cases hts : qualified "t" src.incremental.ts_column with
      | error e =>
        exfalso
        have hw : buildWhere src.incremental lastId lastTs lastTie "t" = .error e := by
          unfold buildWhere
          rw [if_neg hm, hts, bindE_error]
        unfold buildQuery at hq
        rw [if_pos hk, hsel, bindE_ok, htab, bindE_ok, hw, bindE_error] at hq
        exact absurd hq (by simp)
      | ok tsSql =>
      cases htie : qualified "t" src.incremental.tie_breaker with
      | error e =>
        exfalso
        have hw : buildWhere src.incremental lastId lastTs lastTie "t" = .error e := by
          unfold buildWhere
          rw [if_neg hm, hts, bindE_ok, htie, bindE_error]
        unfold buildQuery at hq
        rw [if_pos hk, hsel, bindE_ok, htab, bindE_ok, hw, bindE_error] at hq
        exact absurd hq (by simp)
      | ok tieSql =>
      have hne : ¬("(" ++ tsSql ++ " > ?) OR (" ++ tsSql ++ " = ? AND " ++ tieSql
          ++ " > ?)" = "") := str_append_ne_empty _ " > ?)" (by decide)
      have hkey : ∀ (a b c : Int), buildQuery src a b c batchSize
          = .ok ("SELECT TOP (" ++ toString batchSize ++ ") " ++ selectSql ++ " FROM "
              ++ tableSql ++ " AS t" ++ " WHERE "
              ++ joinWith " AND "
                  (("(" ++ tsSql ++ " > ?) OR (" ++ tsSql ++ " = ? AND " ++ tieSql ++ " > ?)")
                    :: (if src.filter = "" then [] else ["(" ++ src.filter ++ ")"]))
              ++ " ORDER BY " ++ tsSql ++ " ASC, " ++ tieSql ++ " ASC",
              [Value.vTs b, Value.vTs b, Value.vInt c]) := by
        intro a b c
        have hw : buildWhere src.incremental a b c "t"
            = .ok ("(" ++ tsSql ++ " > ?) OR (" ++ tsSql ++ " = ? AND " ++ tieSql ++ " > ?)",
                [Value.vTs b, Value.vTs b, Value.vInt c]) := by
          unfold buildWhere
          rw [if_neg hm, hts, bindE_ok, htie, bindE_ok]
        unfold buildQuery
        rw [if_pos hk, hsel, bindE_ok, htab, bindE_ok, hw, bindE_ok]
        simp only [if_neg hne, List.cons_append, List.nil_append, List.isEmpty_cons,
          Bool.false_eq_true, if_false, if_neg hm]
        rw [hts, bindE_ok, htie, bindE_ok]
      have hq2 := hq
      rw [hkey lastId lastTs lastTie] at hq2
      injection hq2 with hpair
      injection hpair with hq1 hps
      refine ⟨?_, ?_, ?_⟩
      · intro hm1
        exact absurd hm1 hm
      · intro _
        refine ⟨hps.symm, tsSql, tieSql, ?_, ?_, ?_, ?_, ?_⟩
        · rw [hal]
          exact hts
        · rw [hal]
          exact htie
        · rw [hal]
          unfold buildWhere
          rw [if_neg hm, hts, bindE_ok, htie, bindE_ok]
        · obtain ⟨t, ht⟩ := joinWith_cons_ex " AND "
            ("(" ++ tsSql ++ " > ?) OR (" ++ tsSql ++ " = ? AND " ++ tieSql ++ " > ?)")
            (if src.filter = "" then [] else ["(" ++ src.filter ++ ")"])
          refine ⟨"SELECT TOP (" ++ toString batchSize ++ ") " ++ selectSql ++ " FROM "
            ++ tableSql ++ " AS t",
            t ++ (" ORDER BY " ++ tsSql ++ " ASC, " ++ tieSql ++ " ASC"), ?_⟩
          rw [← hq1, ht]
          simp [String.append_assoc]
        · exact ⟨"SELECT TOP (" ++ toString batchSize ++ ") " ++ selectSql ++ " FROM "
            ++ tableSql ++ " AS t" ++ " WHERE "
            ++ joinWith " AND "
                (("(" ++ tsSql ++ " > ?) OR (" ++ tsSql ++ " = ? AND " ++ tieSql ++ " > ?)")
                  :: (if src.filter = "" then [] else ["(" ++ src.filter ++ ")"])), hq1.symm⟩
      · intro a b c
        exact ⟨[Value.vTs b, Value.vTs b, Value.vInt c], by rw [hkey a b c, hq1]⟩
  · have hal : aliasFor src = "q" := by
      unfold aliasFor
      rw [if_neg hk]
    by_cases hm : src.incremental.mode = "id"
    · cases hid : qualified "q" src.incremental.id_column with
      | error e =>
        exfalso
        have hw : buildWhere src.incremental lastId lastTs lastTie "q" = .error e := by
          unfold buildWhere
          rw [if_pos hm, hid, bindE_error]
        unfold buildQuery at hq
        rw [if_neg hk, hw, bindE_error] at hq
        exact absurd hq (by simp)
      | ok idSql =>
      have hne : ¬(idSql ++ " > ?" = "") := str_append_ne_empty idSql " > ?" (by decide)
      have hkey : ∀ (a b c : Int), buildQuery src a b c batchSize
          = .ok ("SELECT TOP (" ++ toString batchSize ++ ") * FROM (" ++ src.query
              ++ ") AS q" ++ " WHERE "
              ++ joinWith " AND " ((idSql ++ " > ?")
                  :: (if src.filter = "" then [] else ["(" ++ src.filter ++ ")"]))
              ++ " ORDER BY " ++ idSql, [Value.vInt a]) := by
        intro a b c
        have hw : buildWhere src.incremental a b c "q"
            = .ok (idSql ++ " > ?", [Value.vInt a]) := by
          unfold buildWhere
          rw [if_pos hm, hid, bindE_ok]
        unfold buildQuery
        rw [if_neg hk, hw, bindE_ok]
        simp only [if_neg hne, List.cons_append, List.nil_append, List.isEmpty_cons,
          Bool.false_eq_true, if_false, if_pos hm]
        rw [hid, bindE_ok]
      have hq2 := hq
      rw [hkey lastId lastTs lastTie] at hq2
      injection hq2 with hpair
      injection hpair with hq1 hps
      refine ⟨?_, ?_, ?_⟩
      · intro _
        refine ⟨hps.symm, idSql, ?_, ?_, ?_, ?_⟩
        · rw [hal]
          exact hid
        · rw [hal]
          unfold buildWhere
          rw [if_pos hm, hid, bindE_ok]
        · obtain ⟨t, ht⟩ := joinWith_cons_ex " AND " (idSql ++ " > ?")
            (if src.filter = "" then [] else ["(" ++ src.filter ++ ")"])
          refine ⟨"SELECT TOP (" ++ toString batchSize ++ ") * FROM (" ++ src.query
            ++ ") AS q", t ++ (" ORDER BY " ++ idSql), ?_⟩
          rw [← hq1, ht]
          simp [String.append_assoc]
        · exact ⟨"SELECT TOP (" ++ toString batchSize ++ ") * FROM (" ++ src.query
            ++ ") AS q" ++ " WHERE "
            ++ joinWith " AND " ((idSql ++ " > ?")
                :: (if src.filter = "" then [] else ["(" ++ src.filter ++ ")"])), hq1.symm⟩
      · intro hm2
        exact absurd (hm.symm.trans hm2) (by decide)
      · intro a b c
        exact ⟨[Value.vInt a], by rw [hkey a b c, hq1]⟩
    · cases hts : qualified "q" src.incremental.ts_column with
      | error e =>
        exfalso
        have hw : buildWhere src.incremental lastId lastTs lastTie "q" = .error e := by
          unfold buildWhere
          rw [if_neg hm, hts, bindE_error]
        unfold buildQuery at hq
        rw [if_neg hk, hw, bindE_error] at hq
        exact absurd hq (by simp)
      | ok tsSql =>
      cases htie : qualified "q" src.incremental.tie_breaker with
      | error e =>
        exfalso
        have hw : buildWhere src.incremental lastId lastTs lastTie "q" = .error e := by
          unfold buildWhere
          rw [if_neg hm, hts, bindE_ok, htie, bindE_error]
        unfold buildQuery at hq
        rw [if_neg hk, hw, bindE_error] at hq
        exact absurd hq (by simp)
      | ok tieSql =>
      have hne : ¬("(" ++ tsSql ++ " > ?) OR (" ++ tsSql ++ " = ? AND " ++ tieSql
          ++ " > ?)" = "") := str_append_ne_empty _ " > ?)" (by decide)
      have hkey : ∀ (a b c : Int), buildQuery src a b c batchSize
          = .ok ("SELECT TOP (" ++ toString batchSize ++ ") * FROM (" ++ src.query
              ++ ") AS q" ++ " WHERE "
              ++ joinWith " AND "
                  (("(" ++ tsSql ++ " > ?) OR (" ++ tsSql ++ " = ? AND " ++ tieSql ++ " > ?)")
                    :: (if src.filter = "" then [] else ["(" ++ src.filter ++ ")"]))
              ++ " ORDER BY " ++ tsSql ++ " ASC, " ++ tieSql ++ " ASC",
              [Value.vTs b, Value.vTs b, Value.vInt c]) := by
        intro a b c
        have hw : buildWhere src.incremental a b c "q"
            = .ok ("(" ++ tsSql ++ " > ?) OR (" ++ tsSql ++ " = ? AND " ++ tieSql ++ " > ?)",
                [Value.vTs b, Value.vTs b, Value.vInt c]) := by
          unfold buildWhere
          rw [if_neg hm, hts, bindE_ok, htie, bindE_ok]
        unfold buildQuery
        rw [if_neg hk, hw, bindE_ok]
        simp only [if_neg hne, List.cons_append, List.nil_append, List.isEmpty_cons,
          Bool.false_eq_true, if_false, if_neg hm]
        rw [hts, bindE_ok, htie, bindE_ok]
      have hq2 := hq
      rw [hkey lastId lastTs lastTie] at hq2
      injection hq2 with hpair
      injection hpair with hq1 hps
      refine ⟨?_, ?_, ?_⟩
      · intro hm1
        exact absurd hm1 hm
      · intro _
        refine ⟨hps.symm, tsSql, tieSql, ?_, ?_, ?_, ?_, ?_⟩
        · rw [hal]
          exact hts
        · rw [hal]
          exact htie
        · rw [hal]
          unfold buildWhere
          rw [if_neg hm, hts, bindE_ok, htie, bindE_ok]
        · obtain ⟨t, ht⟩ := joinWith_cons_ex " AND "
            ("(" ++ tsSql ++ " > ?) OR (" ++ tsSql ++ " = ? AND " ++ tieSql ++ " > ?)")
            (if src.filter = "" then [] else ["(" ++ src.filter ++ ")"])
          refine ⟨"SELECT TOP (" ++ toString batchSize ++ ") * FROM (" ++ src.query
            ++ ") AS q",
            t ++ (" ORDER BY " ++ tsSql ++ " ASC, " ++ tieSql ++ " ASC"), ?_⟩
          rw [← hq1, ht]
          simp [String.append_assoc]
        · exact ⟨"SELECT TOP (" ++ toString batchSize ++ ") * FROM (" ++ src.query
            ++ ") AS q" ++ " WHERE "
            ++ joinWith " AND "
                (("(" ++ tsSql ++ " > ?) OR (" ++ tsSql ++ " = ? AND " ++ tieSql ++ " > ?)")
                  :: (if src.filter = "" then [] else ["(" ++ src.filter ++ ")"])), hq1.symm⟩
      · intro a b c
        exact ⟨[Value.vTs b, Value.vTs b, Value.vInt c], by rw [hkey a b c, hq1]⟩

/-- C1 witness: a concrete id-mode table source built at cursor
`(5, 100, 2)` yields the expected text and `[5]` as the only parameter;
rebuilding at cursor `(9, 8, 7)` produces the identical query text. -/
theorem c1_witness :
    ∃ ps2, buildQuery
      { name := "orders", kind := "table", table := "orders", query := "", select := [],
        filter := "",
        incremental :=
          { mode := "id", id_column := "id", ts_column := "",
            tie_breaker := "", start_from := none } } 9 8 7 50
      = .ok ("SELECT TOP (50) * FROM [orders] AS t WHERE t.[id] > ? ORDER BY t.[id]", ps2) :=
  (c1_incremental_query
    { name := "orders", kind := "table", table := "orders", query := "", select := [],
      filter := "",
      incremental :=
        { mode := "id", id_column := "id", ts_column := "",
          tie_breaker := "", start_from := none } } 5 100 2 50
    "SELECT TOP (50) * FROM [orders] AS t WHERE t.[id] > ? ORDER BY t.[id]"
    [Value.vInt 5] rfl).2.2 9 8 7

/-- C5 witness: the fresh-path conjunct applied at a concrete source
state — an empty fetch leaves the stored watermark untouched. -/
theorem c5_witness :
    processSource "id" "id" "ts" "tie" none 0 none ⟨some 5, none, none⟩
      (fun _ _ _ => []) true true = .ok (⟨some 5, none, none⟩, .noRows) :=
  c5_empty_batch_watermark.1 "id" "id" "ts" "tie" none 0 none ⟨some 5, none, none⟩ true true
